import Mathlib

/-!
# Contiguous frame pool (`cont_frame_pool.C`)

A shallow embedding of the class `ContFramePool`: the constructor, `get_frames`,
`mark_inaccessible`, `release_frames` and `needed_info_frames`, followed by the
properties established about them.

Conventions of the embedding

* The bitmap is the byte memory starting at the pool's `bitmap` pointer, a function
  from byte index to `Nat`.  A read of an `unsigned char` is taken modulo 256 and a
  store truncates modulo 256.
* `unsigned int` and `unsigned long` values are natural numbers; where the source
  computes a sum or a difference that can leave the 32-bit range of the i386 target
  the result is reduced modulo `2^32`.
* `assert` is a fatal abort: the outcome records the pool as it was when the
  assertion failed.
* Every pool object carries the memory seen from its own `bitmap` pointer; the bitmaps
  of different pools are taken not to overlap, which is the caller's obligation.
* Every loop is a structural recursion over a step budget.  A counting loop takes the
  number of values its counter can run through; the `while` loops of `get_frames`
  report an exhausted budget explicitly, and `get_frames_returns` shows that this
  never happens.
-/

/-! ## Constants and frame states -/

namespace ContFramePool

/-- Modelled from the spec: the constant `FRAME_SIZE` of the header that is not part of
the sources, the size of a frame in bytes (4096). -/
def FRAME_SIZE : Nat := 4096

/-- Modulus of `unsigned int` and `unsigned long` arithmetic on the 32-bit target. -/
def WORD : Nat := 2 ^ 32

/-- Frame state `00` (constructor comment, line 172). -/
def FREE : Nat := 0
/-- Frame state `01` (constructor comment, line 173). -/
def HEAD_OF_SEQUENCE : Nat := 1
/-- Frame state `10` (constructor comment, line 174). -/
def INACCESSIBLE : Nat := 2
/-- Frame state `11` (constructor comment, line 175). -/
def ALLOCATED : Nat := 3

/-! ## Byte memory -/

/-- Read of the `unsigned char` at index `i`. -/
def rd (bm : Nat → Nat) (i : Nat) : Nat := bm i % 256

/-- Store of `v`, truncated to an `unsigned char`, at index `i`. -/
def wr (bm : Nat → Nat) (i v : Nat) : Nat → Nat :=
  fun k => if k = i then v % 256 else bm k

/-- The operand `~m` of `b & ~m` for `unsigned char` values `b` and `m`: only the low
eight bits of the complement take part. -/
def cpl (m : Nat) : Nat := 255 - m % 256

/-- Unsigned subtraction `a - b` on machine words. -/
def usub (a b : Nat) : Nat := (a % WORD + (WORD - b % WORD)) % WORD

/-- The two bits of byte `b` at position `t` (0 is the most significant pair), the
bits selected by the mask `0xc0 >> (t * 2)`. -/
def slot (b t : Nat) : Nat := (b >>> (6 - 2 * t)) % 4

end ContFramePool

/-! ## The pool object -/

/-- Data members of `ContFramePool` used by the source (the `next` link is represented
by the position of the pool in the registry list). -/
structure ContFramePool where
  base_frame_no : Nat
  n_frames : Nat
  nFreeFrames : Nat
  info_frame_no : Nat
  n_info_frames : Nat
  bitmap : Nat → Nat

namespace ContFramePool

/-- The two-bit state of the frame at offset `k` of the pool, read the way the source
reads it: byte `k / 4`, mask `0xc0 >> ((k % 4) * 2)`. -/
def frameState (p : ContFramePool) (k : Nat) : Nat :=
  slot (rd p.bitmap (k / 4)) (k % 4)

/-- Number of frames of the pool's range whose state is `FREE`. -/
def countFree (p : ContFramePool) : Nat :=
  (List.range p.n_frames).countP (fun k => frameState p k == FREE)

/-- States of all frames of the pool, in frame order. -/
def frameStates (p : ContFramePool) : List Nat :=
  (List.range p.n_frames).map (frameState p)

/-- Result of a call that can fail an assertion. -/
inductive Outcome where
  /-- An `assert` failed; `st` is the pool at that moment. -/
  | abort (st : ContFramePool)
  /-- The call returned `frame`, leaving the pool `st`. -/
  | ret (frame : Nat) (st : ContFramePool)
  /-- A loop exceeded its step budget. -/
  | unfinished

/-- The frame number a call returned, if it returned. -/
def Outcome.frame : Outcome → Option Nat
  | Outcome.ret f _ => some f
  | _ => none

/-- The pool a call left behind, if it finished. -/
def Outcome.pool : Outcome → Option ContFramePool
  | Outcome.ret _ s => some s
  | Outcome.abort s => some s
  | Outcome.unfinished => none

/-- The `n` frames at offsets `k .. k+n-1` lie in the pool and are all `FREE`. -/
def isFreeRun (p : ContFramePool) (k n : Nat) : Bool :=
  decide (k + n ≤ p.n_frames) && (List.range n).all (fun i => frameState p (k + i) == FREE)

/-! ## Constructor (lines 135-202) -/

/-- The loop `for (int i = 0; i*4 < n_frames; i++) bitmap[i] = 0x00;` (lines 176-178). -/
def initLoop (n_frames : Nat) : Nat → Nat → (Nat → Nat) → (Nat → Nat)
  | 0, _, bm => bm
  | fuel + 1, i, bm =>
    if i * 4 < n_frames then initLoop n_frames fuel (i + 1) (wr bm i 0x00) else bm

/-- The constructor `ContFramePool::ContFramePool`, without the registry append.  `mem` is
the content of the memory at the bitmap address before the call.  The two assertions
are checked where the source checks them. -/
def construct (mem : Nat → Nat) (_base_frame_no _n_frames _info_frame_no _n_info_frames : Nat) :
    Option ContFramePool :=
  if ¬ (_n_frames ≤ FRAME_SIZE * 8) then none
  else if ¬ (_n_frames % 8 = 0) then none
  else
    let bm := initLoop _n_frames _n_frames 0 mem
    if _info_frame_no = 0 then
      some { base_frame_no := _base_frame_no, n_frames := _n_frames,
             nFreeFrames := usub _n_frames 1,
             info_frame_no := _info_frame_no, n_info_frames := _n_info_frames,
             bitmap := wr bm 0 0x40 }
    else
      some { base_frame_no := _base_frame_no, n_frames := _n_frames,
             nFreeFrames := _n_frames,
             info_frame_no := _info_frame_no, n_info_frames := _n_info_frames,
             bitmap := bm }

/-- Registry append of the constructor (lines 187-197): the new pool becomes the tail of
the list that starts at `node_head`. -/
def register (registry : List ContFramePool) (p : ContFramePool) : List ContFramePool :=
  registry ++ [p]

/-! ## get_frames (lines 204-287) -/

/-- Local variables of the search of `get_frames`. -/
structure Search where
  i : Nat
  count : Nat
  same_frame : Nat
  find : Nat
  checker : Nat
  frame_no : Nat

/-- One pass through the body of the `for` loop, lines 221-255, for loop variable `j`.
The Boolean is `true` when the pass left the loop by a `break`. -/
def forBody (p : ContFramePool) (frames_needed j : Nat) (s : Search) : Search × Bool :=
  if rd p.bitmap s.i &&& s.checker = 0x0 then
    -- lines 223-230
    let s1 : Search :=
      if s.same_frame = 1 then { s with count := s.count + 1 }
      else { s with same_frame := 1, count := s.count + 1,
                    frame_no := (s.frame_no + (s.i * 4 + j)) % WORD }
    -- lines 250-255
    if s1.count = frames_needed then ({ s1 with find := 1 }, true)
    else ({ s1 with checker := 0xc0, i := s1.i + 1 }, false)
  else
    -- lines 235-241
    let s1 : Search :=
      if s.same_frame = 1 then
        { s with count := 0, same_frame := 0, frame_no := p.base_frame_no }
      else s
    -- line 242
    let s2 : Search := { s1 with checker := (s1.checker >>> 2) % 256 }
    -- lines 244-247
    if s2.count = frames_needed then ({ s2 with find := 1 }, true)
    -- lines 250-255
    else if s2.count = frames_needed then ({ s2 with find := 1 }, true)
    else ({ s2 with checker := 0xc0, i := s2.i + 1 }, false)

/-- The loop `for (int j = 0; j < 4 && count < frames_needed; j++)`, lines 220-256. -/
def forLoop (p : ContFramePool) (frames_needed : Nat) : Nat → Nat → Search → Search
  | 0, _, s => s
  | fuel + 1, j, s =>
    if j < 4 ∧ s.count < frames_needed then
      match forBody p frames_needed j s with
      | (s1, true) => s1
      | (s1, false) => forLoop p frames_needed fuel (j + 1) s1
    else s

/-- How the `while` loop of lines 219-260 ends. -/
inductive Scan where
  /-- The statement `return 0` of line 258 was reached. -/
  | notFound
  /-- The loop condition became false with these locals. -/
  | exit (s : Search)
  /-- The step budget was used up. -/
  | more

/-- The loop `while ((i < n_frames/4) && (count < frames_needed))`, lines 219-260: its
body is the `for` loop followed by `if (find == 0) return 0;`. -/
def whileLoop (p : ContFramePool) (frames_needed : Nat) : Nat → Search → Scan
  | 0, s => if s.i < p.n_frames / 4 ∧ s.count < frames_needed then Scan.more else Scan.exit s
  | fuel + 1, s =>
    if s.i < p.n_frames / 4 ∧ s.count < frames_needed then
      let s1 := forLoop p frames_needed 4 0 s
      if s1.find = 0 then Scan.notFound
      else whileLoop p frames_needed fuel s1
    else Scan.exit s

/-- Local variables of the marking loops of `get_frames`. -/
structure Marking where
  i : Nat
  checker_reset : Nat
  bitmap_index : Nat
  bitmap : Nat → Nat

/-- The inner loop `while ((i < _n_frames) && (checker_reset != 0x0))`, lines 275-280. -/
def markInner (_n_frames checker_allocated : Nat) : Nat → Marking → Option Marking
  | 0, m => if m.i < _n_frames ∧ m.checker_reset ≠ 0x0 then none else some m
  | fuel + 1, m =>
    if m.i < _n_frames ∧ m.checker_reset ≠ 0x0 then
      markInner _n_frames checker_allocated fuel
        { m with
          bitmap := wr m.bitmap m.bitmap_index
            ((rd m.bitmap m.bitmap_index &&& cpl m.checker_reset) ||| checker_allocated)
          checker_reset := (m.checker_reset >>> 2) % 256
          i := m.i + 1 }
    else some m

/-- The outer loop `while (i < _n_frames)`, lines 273-283. -/
def markOuter (_n_frames checker_allocated : Nat) : Nat → Marking → Option Marking
  | 0, m => if m.i < _n_frames then none else some m
  | fuel + 1, m =>
    if m.i < _n_frames then
      match markInner _n_frames checker_allocated 4 m with
      | none => none
      | some m1 =>
        markOuter _n_frames checker_allocated fuel
          { m1 with checker_reset := 0xc0, bitmap_index := m1.bitmap_index + 1 }
    else some m

/-- Lines 265-285 of `get_frames`: the marking of the run that starts at `frame_no`. -/
def markRun (p : ContFramePool) (_n_frames frame_no : Nat) : Outcome :=
  let off := usub frame_no p.base_frame_no
  let checker_head := (0x40 >>> ((off % 4) * 2)) % 256
  let checker_reset := (0xc0 >>> ((off % 4) * 2)) % 256
  let checker_allocated := (0xc0 >>> ((off % 4) * 2)) % 256
  let bitmap_index := off / 4
  let bm := wr p.bitmap bitmap_index
    ((rd p.bitmap bitmap_index &&& cpl checker_reset) ||| checker_head)
  match markOuter _n_frames checker_allocated (_n_frames + 1)
      { i := 1, checker_reset := (checker_reset >>> 2) % 256,
        bitmap_index := bitmap_index, bitmap := bm } with
  | none => Outcome.unfinished
  | some m =>
    Outcome.ret frame_no { p with bitmap := m.bitmap, nFreeFrames := p.nFreeFrames - _n_frames }

/-- The method `ContFramePool::get_frames`. -/
def get_frames (p : ContFramePool) (_n_frames : Nat) : Outcome :=
  if ¬ (p.nFreeFrames > _n_frames) then Outcome.abort p
  else
    match whileLoop p _n_frames (p.n_frames / 4 + 1)
        { i := 0, count := 0, same_frame := 0, find := 0, checker := 0xc0,
          frame_no := p.base_frame_no } with
    | Scan.notFound => Outcome.ret 0 p
    | Scan.more => Outcome.unfinished
    | Scan.exit s => markRun p _n_frames s.frame_no

/-! ## mark_inaccessible (lines 289-308) -/

/-- The loop `for (start; start < end; start++)`, lines 297-306. -/
def markLoop (base_frame_no end_ : Nat) : Nat → Nat → (Nat → Nat) → (Nat → Nat)
  | 0, _, bm => bm
  | fuel + 1, start, bm =>
    if start < end_ then
      let bitmap_index := usub start base_frame_no / 4
      let checker_reset := (0xc0 <<< ((start % 4) * 2)) % 256
      let checker := (0x80 >>> ((start % 4) * 2)) % 256
      let bm1 := wr bm bitmap_index (rd bm bitmap_index &&& cpl checker_reset)
      let bm2 := wr bm1 bitmap_index (rd bm1 bitmap_index ||| checker)
      markLoop base_frame_no end_ fuel (start + 1) bm2
    else bm

/-- The method `ContFramePool::mark_inaccessible`.  The loop runs `end - start` times at
most, which is its step budget. -/
def mark_inaccessible (p : ContFramePool) (_base_frame_no _n_frames : Nat) : ContFramePool :=
  let start := _base_frame_no
  let end_ := (_base_frame_no + _n_frames) % WORD
  { p with bitmap := markLoop p.base_frame_no end_ (end_ - start) start p.bitmap }

/-! ## release_frames (lines 310-350) -/

/-- The registry walk of lines 313-317: position of the pool the walk stops at, `none`
when the walk runs off the end of the list (a null dereference in the source). -/
def findOwner (_first_frame_no : Nat) : List ContFramePool → Option Nat
  | [] => none
  | current :: rest =>
    if current.base_frame_no > _first_frame_no ∨
        _first_frame_no ≥ (current.base_frame_no + current.n_frames) % WORD then
      (findOwner _first_frame_no rest).map (· + 1)
    else some 0

/-- The loop `for (i = _first_frame_no; i < base_frame_no + n_frames; i++)`,
lines 331-346, with its two `break`s. -/
def releaseLoop (base_frame_no bound : Nat) : Nat → Nat → Nat → (Nat → Nat) → (Nat → Nat)
  | 0, _, _, bm => bm
  | fuel + 1, i, checker_reset, bm =>
    if i < bound then
      let index := usub i base_frame_no / 4
      let checker_reset1 := (checker_reset >>> (usub i base_frame_no % 4)) % 256
      if rd bm index &&& checker_reset1 = 0 then bm
      else if rd bm index &&& checker_reset1 = 0 then bm
      else
        releaseLoop base_frame_no bound fuel (i + 1) checker_reset1
          (wr bm index (rd bm index &&& cpl checker_reset1))
    else bm

/-- Lines 320-346 of `release_frames`, acting on the pool `current` found by the walk. -/
def releaseIn (current : ContFramePool) (_first_frame_no : Nat) : ContFramePool :=
  let off := usub _first_frame_no current.base_frame_no
  let bitmap_index := off / 4
  let checker_head := (0x80 >>> ((off % 4) * 2)) % 256
  let checker_reset := (0xc0 >>> (off % 4 * 2)) % 256
  let bm :=
    if (rd current.bitmap bitmap_index ^^^ checker_head) &&& checker_reset = checker_reset then
      wr current.bitmap bitmap_index (rd current.bitmap bitmap_index &&& cpl checker_reset)
    else current.bitmap
  let bound := (current.base_frame_no + current.n_frames) % WORD
  let i := _first_frame_no % WORD
  { current with bitmap := releaseLoop current.base_frame_no bound (bound - i) i checker_reset bm }

/-- The static method `ContFramePool::release_frames` on the registry that starts at
`node_head`.  `none` stands for the walk leaving the list. -/
def release_frames (registry : List ContFramePool) (_first_frame_no : Nat) :
    Option (List ContFramePool) :=
  match findOwner _first_frame_no registry with
  | none => none
  | some k =>
    match registry.get? k with
    | none => none
    | some current => some (registry.set k (releaseIn current _first_frame_no))

/-! ## needed_info_frames (lines 352-356) -/

/-- The static method `ContFramePool::needed_info_frames`; `a*2/ 8*4096` is
`((a*2)/8)*4096` in C. -/
def needed_info_frames (_n_frames : Nat) : Nat :=
  ((_n_frames * 2 % WORD / 8 * 4096) % WORD +
    (if _n_frames * 2 % WORD % (8 * 4096) > 0 then 1 else 0)) % WORD

/-! ## Call sequences on a single registered pool -/

/-- A call made on a pool that is the only entry of the registry. -/
inductive Call where
  | get (n : Nat)
  | mark (b n : Nat)
  | release (f : Nat)

/-- Effect of one call.  The result is `none` when `get_frames` does not return, when
the range of `mark_inaccessible` or the frame of `release_frames` is not inside the
pool, or when the registry walk fails. -/
def Call.run (p : ContFramePool) : Call → Option ContFramePool
  | Call.get n =>
    match get_frames p n with
    | Outcome.ret _ s => some s
    | _ => none
  | Call.mark b n =>
    if p.base_frame_no ≤ b ∧ b + n ≤ p.base_frame_no + p.n_frames then
      some (mark_inaccessible p b n)
    else none
  | Call.release f =>
    if p.base_frame_no ≤ f ∧ f < p.base_frame_no + p.n_frames then
      (release_frames [p] f).bind List.head?
    else none

/-- Effect of a sequence of calls, first call first. -/
def runCalls (p : ContFramePool) : List Call → Option ContFramePool
  | [] => some p
  | c :: cs => (Call.run p c).bind (fun q => runCalls q cs)

/-- Recognises a `mark_inaccessible` call. -/
def Call.isMark : Call → Bool
  | Call.mark _ _ => true
  | _ => false

/-! ## Auxiliary definitions of the proofs -/

/-- One pass of the loop body of `mark_inaccessible` (lines 299-305) on byte `idx`, for
`start % 4 = s`. -/
def markStep (bm : Nat → Nat) (idx s : Nat) : Nat → Nat :=
  wr (wr bm idx (rd bm idx &&& cpl ((0xc0 <<< (s * 2)) % 256))) idx
    (rd (wr bm idx (rd bm idx &&& cpl ((0xc0 <<< (s * 2)) % 256))) idx |||
      (0x80 >>> (s * 2)) % 256)

/-- What one pass of the loop of `mark_inaccessible` makes of the byte `b` it touches,
for `start % 4 = s`. -/
def markByte (b s : Nat) : Nat :=
  (((b &&& cpl ((0xc0 <<< (s * 2)) % 256)) % 256) ||| (0x80 >>> (s * 2)) % 256) % 256

/-- A pool of 16 frames at 512 whose frame 0 is `HEAD_OF_SEQUENCE`, whose frames 1 to 3
are `ALLOCATED` and whose other frames are `FREE`: a four-frame run as the header
comment of `get_frames` describes it. -/
def runOfFour : ContFramePool :=
  { base_frame_no := 512, n_frames := 16, nFreeFrames := 12, info_frame_no := 100,
    n_info_frames := 1, bitmap := fun k => if k = 0 then 0x7F else 0x00 }

/-! ## The registry as a linked list (lines 131-132, 187-197, 313-317) -/

/-- The static pointers `node_head` and `list` and the `next` members of the pool
objects; a pool object is named by its address and `none` is `NULL`. -/
structure Registry where
  node_head : Option Nat
  list : Option Nat
  next : Nat → Option Nat

/-- The registry before any constructor ran: static pointers start as `NULL`. -/
def Registry.empty : Registry :=
  { node_head := none, list := none, next := fun _ => none }

/-- Lines 187-197 of the constructor for the object at address `this`.  With a list the
stores are `list->next = this; list = this; next = NULL;`, in that order.  A `NULL`
`list` next to a non-`NULL` `node_head` would be a null dereference; the registry is
then left as it is. -/
def link (r : Registry) (this : Nat) : Registry :=
  match r.node_head with
  | none =>
    { node_head := some this, list := some this,
      next := fun a => if a = this then none else r.next a }
  | some _ =>
    match r.list with
    | none => r
    | some l =>
      { node_head := r.node_head, list := some this,
        next := fun a => if a = this then none else if a = l then some this else r.next a }

/-- The objects met by following `next` from `cur`, at most `fuel` of them. -/
def walk (r : Registry) : Nat → Option Nat → List Nat
  | 0, _ => []
  | _ + 1, none => []
  | fuel + 1, some a => a :: walk r fuel (r.next a)

/-- Following `next` from `cur` meets exactly the objects of the list, in order, and
then `NULL`. -/
def IsChain (next : Nat → Option Nat) : Option Nat → List Nat → Prop
  | cur, [] => cur = none
  | cur, a :: rest => cur = some a ∧ IsChain next (next a) rest

/-- The range of pool `p` contains frame `f`:
`base_frame_no <= f < base_frame_no + n_frames`. -/
def owns (p : ContFramePool) (f : Nat) : Prop :=
  p.base_frame_no ≤ f ∧ f < p.base_frame_no + p.n_frames

/-! ## The size of the bitmap in the words of the spec -/

/-- The spec's reading of `needed_info_frames`: the least number of whole frames of 4096
bytes that hold a bitmap of 2 bits per frame, `ceil(2 * n / (8 * 4096))`. -/
def needed_info_frames_spec (_n_frames : Nat) : Nat :=
  (2 * _n_frames + (8 * 4096 - 1)) / (8 * 4096)

/-- An externally hosted pool of 16 frames at 1024 whose frame 1030 (offset 6) is
`HEAD_OF_SEQUENCE` and whose other frames are `FREE`. -/
def secondPool : ContFramePool :=
  { base_frame_no := 1024, n_frames := 16, nFreeFrames := 15, info_frame_no := 101,
    n_info_frames := 1, bitmap := fun k => if k = 1 then 0x04 else 0x00 }

/-! ## Behaviour on concrete pools -/

/-- C1: `get_frames` is not first-fit.  On the freshly constructed self-hosted pool of 16
frames at frame 512, where `nFreeFrames = 15 > 3` and offset 1 is the least offset of
three `FREE` frames, `get_frames(3)` returns frame 517 (offset 5) and not frame 513. -/
theorem get_frames_first_fit_fails :
    ∃ p, construct (fun _ => 0) 512 16 0 0 = some p ∧
      p.nFreeFrames = 15 ∧
      frameStates p = [1, 0, 0, 0, 0, 0, 0, 0, 0, 0, 0, 0, 0, 0, 0, 0] ∧
      isFreeRun p 0 3 = false ∧ isFreeRun p 1 3 = true ∧
      (get_frames p 3).frame = some 517 ∧
      (get_frames p 3).frame ≠ some (p.base_frame_no + 1) :=
  ⟨_, rfl, by decide!, by decide!, by decide!, by decide!, by decide!, by decide!⟩

/-- C2: the marking of `get_frames` does not produce a head followed by allocated frames.
After `get_frames(3)` returned frame 517 on the fresh self-hosted pool of 16 frames at
512, frame 517 is `ALLOCATED` (not `HEAD_OF_SEQUENCE`) and frames 518 and 519 are
`FREE` (not `ALLOCATED`); `nFreeFrames` went from 15 to 12. -/
theorem get_frames_marking_fails :
    ∃ p, construct (fun _ => 0) 512 16 0 0 = some p ∧
      (get_frames p 3).frame = some 517 ∧
      (get_frames p 3).pool.map frameStates =
        some [1, 0, 0, 0, 0, 3, 0, 0, 0, 0, 0, 0, 0, 0, 0, 0] ∧
      (get_frames p 3).pool.map (fun s => frameState s 5) = some ALLOCATED ∧
      (get_frames p 3).pool.map (fun s => frameState s 6) = some FREE ∧
      (get_frames p 3).pool.map (fun s => frameState s 7) = some FREE ∧
      p.nFreeFrames = 15 ∧
      (get_frames p 3).pool.map (fun s => s.nFreeFrames) = some 12 :=
  ⟨_, rfl, by decide!, by decide!, by decide!, by decide!, by decide!, by decide!, by decide!⟩

/-- C3: `get_frames` hands out a frame that is not `FREE`.  On the fresh self-hosted pool
of 16 frames at 512, a first `get_frames(1)` returns frame 517 and marks it
`HEAD_OF_SEQUENCE`; a second `get_frames(1)` returns frame 517 again, although its
state immediately before that call is `HEAD_OF_SEQUENCE`. -/
theorem get_frames_returns_occupied_frame :
    ∃ p, construct (fun _ => 0) 512 16 0 0 = some p ∧
      (get_frames p 1).frame = some 517 ∧
      (get_frames p 1).pool.map (fun s => frameState s 5) = some HEAD_OF_SEQUENCE ∧
      ((get_frames p 1).pool.bind (fun s => (get_frames s 1).frame)) = some 517 ∧
      ((get_frames p 1).pool.bind (fun s => (get_frames s 1).pool)).map
          (fun t => (frameStates t, t.nFreeFrames)) =
        some ([1, 0, 0, 0, 0, 1, 0, 0, 0, 0, 0, 0, 0, 0, 0, 0], 13) :=
  ⟨_, rfl, by decide!, by decide!, by decide!, by decide!⟩

/-- C4: allocate-then-release does not restore the pool.  On the fresh self-hosted pool of
16 frames at 512 (`nFreeFrames = 15`), `get_frames(3)` returns 517; `release_frames(517)`
right after leaves frame 517 `INACCESSIBLE` instead of `FREE` and `nFreeFrames` at 12
instead of 15. -/
theorem get_then_release_not_restored :
    ∃ p, construct (fun _ => 0) 512 16 0 0 = some p ∧
      p.nFreeFrames = 15 ∧
      (get_frames p 3).frame = some 517 ∧
      ((get_frames p 3).pool.bind (fun s => release_frames [s] 517)).map
          (List.map (fun t => (frameStates t, t.nFreeFrames))) =
        some [([1, 0, 0, 0, 0, 2, 0, 0, 0, 0, 0, 0, 0, 0, 0, 0], 12)] :=
  ⟨_, rfl, by decide!, by decide!, by decide!⟩

/-- C6: a fragmented pool does not yield the sentinel.  In the externally hosted pool of
16 frames at 512 in which `mark_inaccessible` has covered every frame whose offset is
not a multiple of 4, no three consecutive frames are `FREE` and `nFreeFrames = 16 > 3`;
`get_frames(3)` nevertheless returns frame 512, not 0, and changes frame states and
`nFreeFrames`. -/
theorem get_frames_fragmented_not_sentinel :
    ∃ p s, construct (fun _ => 0) 512 16 100 1 = some p ∧
      runCalls p [Call.mark 513 3, Call.mark 517 3, Call.mark 521 3, Call.mark 525 3] = some s ∧
      frameStates s = [0, 2, 2, 2, 0, 2, 2, 2, 0, 2, 2, 2, 0, 2, 2, 2] ∧
      s.nFreeFrames = 16 ∧
      (∀ k < 16, isFreeRun s k 3 = false) ∧
      (get_frames s 3).frame = some 512 ∧
      (get_frames s 3).pool.map (fun t => (frameStates t, t.nFreeFrames)) =
        some ([3, 0, 0, 2, 0, 2, 2, 2, 0, 2, 2, 2, 0, 2, 2, 2], 13) :=
  ⟨_, _, rfl, rfl, by decide!, by decide!, by decide!, by decide!, by decide!⟩

/-- C8: releasing a frame that is not a head is not rejected.  In the self-hosted pool of
16 frames at 512 after `mark_inaccessible(516, 4)`, frame 517 is `INACCESSIBLE`;
`release_frames(517)` completes without any failure and turns frames 518 and 519 from
`INACCESSIBLE` to `FREE`. -/
theorem release_non_head_not_rejected :
    ∃ p s, construct (fun _ => 0) 512 16 0 0 = some p ∧
      runCalls p [Call.mark 516 4] = some s ∧
      frameStates s = [1, 0, 0, 0, 2, 2, 2, 2, 0, 0, 0, 0, 0, 0, 0, 0] ∧
      frameState s 5 ≠ HEAD_OF_SEQUENCE ∧
      (release_frames [s] 517).map (List.map (fun t => (frameStates t, t.nFreeFrames))) =
        some [([1, 0, 0, 0, 2, 2, 0, 0, 0, 0, 0, 0, 0, 0, 0, 0], 15)] :=
  ⟨_, _, rfl, rfl, by decide!, by decide!, by decide!⟩

/-- C9: `release_frames` does not free the run of the head.  (a) With frame 512
`HEAD_OF_SEQUENCE` followed by three `ALLOCATED` frames, `release_frames(512)` frees
frame 512 only and leaves frames 513 to 515 `ALLOCATED`.  (b) After `get_frames(1)`
returned 517 on the fresh self-hosted pool and `mark_inaccessible(518, 1)`, frame 517
is a head followed by no `ALLOCATED` frame, and `release_frames(517)` also turns the
`INACCESSIBLE` frame 518 into `FREE`. -/
theorem release_frames_run_not_freed :
    frameStates runOfFour = [1, 3, 3, 3, 0, 0, 0, 0, 0, 0, 0, 0, 0, 0, 0, 0] ∧
    (release_frames [runOfFour] 512).map (List.map frameStates) =
      some [[0, 3, 3, 3, 0, 0, 0, 0, 0, 0, 0, 0, 0, 0, 0, 0]] ∧
    ∃ p s, construct (fun _ => 0) 512 16 0 0 = some p ∧
      runCalls p [Call.get 1, Call.mark 518 1] = some s ∧
      frameStates s = [1, 0, 0, 0, 0, 1, 2, 0, 0, 0, 0, 0, 0, 0, 0, 0] ∧
      (release_frames [s] 517).map (List.map frameStates) =
        some [[1, 0, 0, 0, 0, 0, 0, 0, 0, 0, 0, 0, 0, 0, 0, 0]] :=
  ⟨by decide!, by decide!, _, _, rfl, rfl, by decide!, by decide!⟩

/-! ## Termination of `get_frames` -/

/-- A pass of the `for` body that starts with `find = 0` either breaks with
`count = frames_needed`, or continues with `find = 0`. -/
theorem forBody_find (p : ContFramePool) (n j : Nat) (s : Search) (h : s.find = 0) :
    ((forBody p n j s).2 = true → (forBody p n j s).1.count = n) ∧
    ((forBody p n j s).2 = false → (forBody p n j s).1.find = 0) := by
  unfold forBody
  split_ifs <;> simp only <;> split_ifs <;> simp_all

/-- The `for` loop started with `find = 0` ends with `find = 0` or `count = frames_needed`. -/
theorem forLoop_find (p : ContFramePool) (n : Nat) :
    ∀ (fuel j : Nat) (s : Search), s.find = 0 →
      (forLoop p n fuel j s).find = 0 ∨ (forLoop p n fuel j s).count = n := by
  intro fuel
  induction fuel with
  | zero => intro j s h; exact Or.inl h
  | succ fuel ih =>
    intro j s h
    unfold forLoop
    by_cases hg : j < 4 ∧ s.count < n
    · rw [if_pos hg]
      have hb := forBody_find p n j s h
      rcases hfb : forBody p n j s with ⟨s1, b⟩
      rw [hfb] at hb
      cases b with
      | true => exact Or.inr (hb.1 rfl)
      | false => exact ih (j + 1) s1 (hb.2 rfl)
    · rw [if_neg hg]; exact Or.inl h

/-- With a budget of at least one step the `while` loop started with `find = 0` ends. -/
theorem whileLoop_ends (p : ContFramePool) (n fuel : Nat) (s : Search) (h : s.find = 0) :
    whileLoop p n (fuel + 1) s ≠ Scan.more := by
  unfold whileLoop
  by_cases hg : s.i < p.n_frames / 4 ∧ s.count < n
  · rw [if_pos hg]
    simp only
    by_cases hf : (forLoop p n 4 0 s).find = 0
    · rw [if_pos hf]; exact fun h => Scan.noConfusion h
    · rw [if_neg hf]
      have hc : (forLoop p n 4 0 s).count = n := (forLoop_find p n 4 0 s h).resolve_left hf
      have hng : ¬ ((forLoop p n 4 0 s).i < p.n_frames / 4 ∧ (forLoop p n 4 0 s).count < n) := by
        rw [hc]; intro h'; exact Nat.lt_irrefl _ h'.2
      cases fuel with
      | zero => unfold whileLoop; rw [if_neg hng]; exact fun h => Scan.noConfusion h
      | succ k => unfold whileLoop; rw [if_neg hng]; exact fun h => Scan.noConfusion h
  · rw [if_neg hg]; exact fun h => Scan.noConfusion h

/-- The inner marking loop ends within `fuel` steps when `checker_reset < 4 ^ fuel`; it
never decreases `i`, and it increases `i` when it starts with `checker_reset ≠ 0` and
`i < _n_frames`. -/
theorem markInner_ends (n ca : Nat) :
    ∀ (fuel : Nat) (m : Marking), m.checker_reset < 4 ^ fuel →
      ∃ m1, markInner n ca fuel m = some m1 ∧ m.i ≤ m1.i ∧
        (m.checker_reset ≠ 0 → m.i < n → m.i < m1.i) := by
  intro fuel
  induction fuel with
  | zero =>
    intro m h
    have h0 : m.checker_reset = 0 := by simpa using h
    refine ⟨m, ?_, le_refl _, fun hne => absurd h0 hne⟩
    unfold markInner
    simp [h0]
  | succ fuel ih =>
    intro m h
    unfold markInner
    by_cases hg : m.i < n ∧ m.checker_reset ≠ 0x0
    · rw [if_pos hg]
      have hlt : (m.checker_reset >>> 2) % 256 < 4 ^ fuel := by
        have h1 : m.checker_reset >>> 2 < 4 ^ fuel := by
          rw [Nat.shiftRight_eq_div_pow]
          have : m.checker_reset < 4 ^ fuel * 2 ^ 2 := by
            rw [pow_succ] at h; simpa using h
          exact Nat.div_lt_of_lt_mul (by rw [Nat.mul_comm]; exact this)
        exact lt_of_le_of_lt (Nat.mod_le _ _) h1
      obtain ⟨m1, hm1, hle, _⟩ := ih
        { m with
          bitmap := wr m.bitmap m.bitmap_index
            ((rd m.bitmap m.bitmap_index &&& cpl m.checker_reset) ||| ca)
          checker_reset := (m.checker_reset >>> 2) % 256
          i := m.i + 1 } hlt
      refine ⟨m1, hm1, ?_, fun _ _ => ?_⟩
      · simp only at hle; omega
      · simp only at hle; omega
    · rw [if_neg hg]
      refine ⟨m, rfl, le_refl _, fun hne hlt => absurd ⟨hlt, hne⟩ hg⟩

/-- The outer marking loop ends within `fuel` steps when `fuel` covers the frames still
to mark, plus one step if it starts with an exhausted mask. -/
theorem markOuter_ends (n ca : Nat) :
    ∀ (fuel : Nat) (m : Marking), m.checker_reset < 256 →
      (n - m.i) + (if m.checker_reset = 0 then 1 else 0) ≤ fuel →
      ∃ m1, markOuter n ca fuel m = some m1 := by
  intro fuel
  induction fuel with
  | zero =>
    intro m _ h
    have : ¬ m.i < n := by omega
    exact ⟨m, by unfold markOuter; rw [if_neg this]⟩
  | succ fuel ih =>
    intro m hcr h
    unfold markOuter
    by_cases hg : m.i < n
    · rw [if_pos hg]
      obtain ⟨m1, hm1, hle, hlt⟩ := markInner_ends n ca 4 m (by norm_num; exact hcr)
      rw [hm1]
      simp only
      apply ih
      · norm_num
      · simp only
        by_cases h0 : m.checker_reset = 0
        · simp [h0] at h; simp; omega
        · have := hlt h0 hg
          simp [h0] at h; simp; omega
    · rw [if_neg hg]; exact ⟨m, rfl⟩

/-- The marking part of `get_frames` always returns the frame it was given. -/
theorem markRun_returns (p : ContFramePool) (n f : Nat) :
    ∃ s, markRun p n f = Outcome.ret f s := by
  unfold markRun
  simp only
  obtain ⟨m1, hm1⟩ := markOuter_ends n
    ((0xc0 >>> ((usub f p.base_frame_no % 4) * 2)) % 256) (n + 1)
    { i := 1,
      checker_reset := (((0xc0 >>> ((usub f p.base_frame_no % 4) * 2)) % 256) >>> 2) % 256,
      bitmap_index := usub f p.base_frame_no / 4,
      bitmap := wr p.bitmap (usub f p.base_frame_no / 4)
        ((rd p.bitmap (usub f p.base_frame_no / 4) &&&
            cpl ((0xc0 >>> ((usub f p.base_frame_no % 4) * 2)) % 256)) |||
          (0x40 >>> ((usub f p.base_frame_no % 4) * 2)) % 256) }
    (Nat.mod_lt _ (by norm_num))
    (by simp only; split_ifs <;> omega)
  rw [hm1]
  exact ⟨_, rfl⟩

/-- Whenever its assertion holds, `get_frames` returns: no loop of it runs out of steps. -/
theorem get_frames_returns (p : ContFramePool) (n : Nat) (h : n < p.nFreeFrames) :
    ∃ f s, get_frames p n = Outcome.ret f s := by
  unfold get_frames
  rw [if_neg (by simpa using h)]
  have hw := whileLoop_ends p n (p.n_frames / 4)
    { i := 0, count := 0, same_frame := 0, find := 0, checker := 0xc0,
      frame_no := p.base_frame_no } rfl
  rcases hs : whileLoop p n (p.n_frames / 4 + 1)
    { i := 0, count := 0, same_frame := 0, find := 0, checker := 0xc0,
      frame_no := p.base_frame_no } with _ | s | _
  · exact ⟨0, p, rfl⟩
  · obtain ⟨t, ht⟩ := markRun_returns p n s.frame_no
    exact ⟨s.frame_no, t, ht⟩
  · exact absurd hs hw

/-! ## Byte-level facts -/

theorem rd_lt (bm : Nat → Nat) (i : Nat) : rd bm i < 256 := Nat.mod_lt _ (by norm_num)

theorem rd_wr (bm : Nat → Nat) (i v k : Nat) :
    rd (wr bm i v) k = if k = i then v % 256 else rd bm k := by
  unfold rd wr
  split_ifs <;> simp

theorem slot_markByte :
    ∀ b < 256, ∀ s < 4, ∀ t < 4,
      slot (markByte b s) t =
        if t = s then (if s = 0 then INACCESSIBLE else slot b t ||| INACCESSIBLE) else slot b t := by
  decide!

theorem slot_or_inaccessible :
    ∀ v < 4, (v ||| INACCESSIBLE = INACCESSIBLE ↔ v = FREE ∨ v = INACCESSIBLE) ∧
      v ||| INACCESSIBLE ≠ FREE := by
  decide!

theorem slot_lt (b t : Nat) : slot b t < 4 := Nat.mod_lt _ (by norm_num)

/-! ## The loop of `mark_inaccessible` -/

theorem markLoop_succ (base e fuel start : Nat) (bm : Nat → Nat) :
    markLoop base e (fuel + 1) start bm =
      if start < e then
        markLoop base e fuel (start + 1) (markStep bm (usub start base / 4) (start % 4))
      else bm := rfl

theorem rd_markStep (bm : Nat → Nat) (idx s j : Nat) :
    rd (markStep bm idx s) j = if j = idx then markByte (rd bm idx) s else rd bm j := by
  unfold markStep markByte
  rw [rd_wr]
  split_ifs with h
  · rw [rd_wr, if_pos rfl]
  · rw [rd_wr, if_neg h]

/-- A pass of the loop never turns a frame `FREE`. -/
theorem markStep_free (bm : Nat → Nat) (idx s k : Nat) (hs : s < 4)
    (h : slot (rd (markStep bm idx s) (k / 4)) (k % 4) = FREE) :
    slot (rd bm (k / 4)) (k % 4) = FREE := by
  rw [rd_markStep] at h
  split_ifs at h with hk
  · have hm := slot_markByte (rd bm idx) (rd_lt _ _) s hs (k % 4) (Nat.mod_lt _ (by norm_num))
    rw [hm] at h
    rw [hk]
    split_ifs at h with h1 h2
    · exact absurd h (by decide)
    · exact absurd h (slot_or_inaccessible _ (slot_lt _ _)).2
    · exact h
  · exact h

/-- The loop of `mark_inaccessible` never turns a frame `FREE`, whatever its range. -/
theorem markLoop_free (base e : Nat) :
    ∀ (fuel start : Nat) (bm : Nat → Nat) (k : Nat),
      slot (rd (markLoop base e fuel start bm) (k / 4)) (k % 4) = FREE →
      slot (rd bm (k / 4)) (k % 4) = FREE := by
  intro fuel
  induction fuel with
  | zero => intro start bm k h; exact h
  | succ fuel ih =>
    intro start bm k h
    rw [markLoop_succ] at h
    split_ifs at h
    · exact markStep_free bm _ _ k (Nat.mod_lt _ (by norm_num)) (ih _ _ k h)
    · exact h

theorem usub_eq (a b : Nat) (hba : b ≤ a) (ha : a < WORD) : usub a b = a - b := by
  unfold usub
  have hb : b < WORD := lt_of_le_of_lt hba ha
  rw [Nat.mod_eq_of_lt ha, Nat.mod_eq_of_lt hb]
  have : a + (WORD - b) = (a - b) + WORD := by omega
  rw [this, Nat.add_mod_right, Nat.mod_eq_of_lt (by omega)]

/-- Frame states after one pass of the loop that handles the frame at offset `d`, when
the slot it uses is the slot of that frame. -/
theorem markStep_slot (bm : Nat → Nat) (d k : Nat) :
    slot (rd (markStep bm (d / 4) (d % 4)) (k / 4)) (k % 4) =
      if k = d then
        (if d % 4 = 0 then INACCESSIBLE else slot (rd bm (d / 4)) (d % 4) ||| INACCESSIBLE)
      else slot (rd bm (k / 4)) (k % 4) := by
  rw [rd_markStep]
  have hm := slot_markByte (rd bm (d / 4)) (rd_lt _ _) (d % 4) (Nat.mod_lt _ (by norm_num))
    (k % 4) (Nat.mod_lt _ (by norm_num))
  by_cases hkd : k = d
  · subst hkd
    rw [if_pos rfl, if_pos rfl, hm, if_pos rfl]
  · rw [if_neg hkd]
    by_cases hq : k / 4 = d / 4
    · rw [if_pos hq, hm, hq]
      have : k % 4 ≠ d % 4 := by omega
      rw [if_neg this]
    · rw [if_neg hq]

/-- Frame states after the loop of `mark_inaccessible` in a pool whose base is a multiple
of 4: a frame of the range at an offset that is a multiple of 4 is `INACCESSIBLE`, any
other frame of the range has bit `10` added to its state, and frames outside the range
keep their state. -/
theorem markLoop_slot (base e : Nat) (hb : base % 4 = 0) (he : e ≤ WORD) :
    ∀ (fuel start : Nat) (bm : Nat → Nat), base ≤ start → start + fuel = e → ∀ k,
      slot (rd (markLoop base e fuel start bm) (k / 4)) (k % 4) =
        if start ≤ base + k ∧ base + k < e then
          (if k % 4 = 0 then INACCESSIBLE else slot (rd bm (k / 4)) (k % 4) ||| INACCESSIBLE)
        else slot (rd bm (k / 4)) (k % 4) := by
  intro fuel
  induction fuel with
  | zero =>
    intro start bm _ hse k
    have : ¬ (start ≤ base + k ∧ base + k < e) := by omega
    rw [if_neg this]; rfl
  | succ fuel ih =>
    intro start bm hbs hse k
    have hlt : start < e := by omega
    rw [markLoop_succ, if_pos hlt, ih (start + 1) _ (by omega) (by omega) k]
    have hu : usub start base = start - base := usub_eq _ _ hbs (by omega)
    have hmod : start % 4 = (start - base) % 4 := by omega
    rw [hu, hmod, markStep_slot]
    by_cases hk : k = start - base
    · have h1 : ¬ (start + 1 ≤ base + k ∧ base + k < e) := by omega
      have h2 : start ≤ base + k ∧ base + k < e := by omega
      rw [if_neg h1, if_pos hk, if_pos h2, hk]
    · rw [if_neg hk]
      by_cases h2 : start ≤ base + k ∧ base + k < e
      · have h1 : start + 1 ≤ base + k ∧ base + k < e := by omega
        rw [if_pos h1, if_pos h2]
      · have h1 : ¬ (start + 1 ≤ base + k ∧ base + k < e) := by omega
        rw [if_neg h1, if_neg h2]

/-! ## The constructor -/

/-- Bytes written by the initialisation loop of the constructor. -/
theorem initLoop_apply (n : Nat) :
    ∀ (fuel i : Nat) (bm : Nat → Nat) (k : Nat), n ≤ 4 * (i + fuel) →
      initLoop n fuel i bm k = if i ≤ k ∧ k * 4 < n then 0 else bm k := by
  intro fuel
  induction fuel with
  | zero =>
    intro i bm k h
    have : ¬ (i ≤ k ∧ k * 4 < n) := by omega
    rw [if_neg this]; rfl
  | succ fuel ih =>
    intro i bm k h
    unfold initLoop
    by_cases hi : i * 4 < n
    · rw [if_pos hi, ih (i + 1) _ k (by omega)]
      by_cases hk : k = i
      · subst hk
        have h1 : ¬ (k + 1 ≤ k ∧ k * 4 < n) := by omega
        have h2 : k ≤ k ∧ k * 4 < n := ⟨le_refl _, hi⟩
        rw [if_neg h1, if_pos h2]
        unfold wr
        rw [if_pos rfl]
      · by_cases h2 : i ≤ k ∧ k * 4 < n
        · have h1 : i + 1 ≤ k ∧ k * 4 < n := by omega
          rw [if_pos h1, if_pos h2]
        · have h1 : ¬ (i + 1 ≤ k ∧ k * 4 < n) := by omega
          rw [if_neg h1, if_neg h2]
          unfold wr
          rw [if_neg hk]
    · rw [if_neg hi]
      have : ¬ (i ≤ k ∧ k * 4 < n) := by omega
      rw [if_neg this]

theorem slot_zero : ∀ t < 4, slot 0 t = FREE := by decide!

theorem slot_head_byte :
    ∀ t < 4, slot (0x40 % 256) t = if t = 0 then HEAD_OF_SEQUENCE else FREE := by decide!

/-- Fields and frame states of a freshly constructed pool: every frame is `FREE`, except
frame 0 of a self-hosted pool, which is `HEAD_OF_SEQUENCE`. -/
theorem construct_spec (mem : Nat → Nat) (base n info ninfo : Nat) (p : ContFramePool)
    (h : construct mem base n info ninfo = some p) :
    n ≤ FRAME_SIZE * 8 ∧ n % 8 = 0 ∧
    p.base_frame_no = base ∧ p.n_frames = n ∧
    p.nFreeFrames = (if info = 0 then usub n 1 else n) ∧
    ∀ k < n, frameState p k =
      if k = 0 ∧ info = 0 then HEAD_OF_SEQUENCE else FREE := by
  unfold construct at h
  by_cases h1 : n ≤ FRAME_SIZE * 8
  · by_cases h2 : n % 8 = 0
    · rw [if_neg (not_not.mpr h1), if_neg (not_not.mpr h2)] at h
      simp only at h
      have hz : ∀ k < n, initLoop n n 0 mem (k / 4) = 0 := by
        intro k hk
        rw [initLoop_apply n n 0 mem (k / 4) (by omega)]
        have : 0 ≤ k / 4 ∧ k / 4 * 4 < n := by omega
        rw [if_pos this]
      by_cases hi : info = 0
      · rw [if_pos hi] at h
        have hp : p = _ := (Option.some.inj h).symm
        subst hp
        refine ⟨h1, h2, rfl, rfl, by rw [if_pos hi], ?_⟩
        intro k hk
        unfold frameState
        simp only
        rw [rd_wr]
        by_cases hk4 : k / 4 = 0
        · rw [if_pos hk4, slot_head_byte _ (Nat.mod_lt _ (by norm_num))]
          have hk' : k < 4 := by omega
          by_cases hk0 : k = 0
          · subst hk0; simp [hi]
          · have : k % 4 ≠ 0 := by omega
            rw [if_neg this, if_neg (fun hc => hk0 hc.1)]
        · rw [if_neg hk4]
          unfold rd
          rw [hz k hk]
          have : ¬ (k = 0 ∧ info = 0) := fun hc => hk4 (by rw [hc.1])
          rw [if_neg this]
          exact slot_zero _ (Nat.mod_lt _ (by norm_num))
      · rw [if_neg hi] at h
        have hp : p = _ := (Option.some.inj h).symm
        subst hp
        refine ⟨h1, h2, rfl, rfl, by rw [if_neg hi], ?_⟩
        intro k hk
        unfold frameState rd
        simp only
        rw [hz k hk, if_neg (fun hc => hi hc.2)]
        exact slot_zero _ (Nat.mod_lt _ (by norm_num))
    · rw [if_neg (not_not.mpr h1), if_pos h2] at h
      exact Option.noConfusion h
  · rw [if_pos h1] at h
    exact Option.noConfusion h

theorem countP_range_ne_zero (n : Nat) :
    (List.range n).countP (fun k => decide (k ≠ 0)) = n - 1 := by
  induction n with
  | zero => rfl
  | succ m ih =>
    rw [List.range_succ, List.countP_append, ih]
    cases m with
    | zero => rfl
    | succ j => simp [List.countP_cons]

theorem countP_range_true (n : Nat) :
    (List.range n).countP (fun _ => true) = n := by
  simp [List.countP_eq_length_filter]

/-- In a freshly constructed pool with at least one frame, `nFreeFrames` is the number of
`FREE` frames. -/
theorem construct_countFree (mem : Nat → Nat) (base n info ninfo : Nat) (p : ContFramePool)
    (h : construct mem base n info ninfo = some p) (hn : 0 < n) :
    p.nFreeFrames = countFree p := by
  obtain ⟨h1, _, _, hnf, hfree, hst⟩ := construct_spec mem base n info ninfo p h
  unfold countFree
  rw [hnf, hfree]
  by_cases hi : info = 0
  · rw [if_pos hi]
    have hc : (List.range n).countP (fun k => frameState p k == FREE) =
        (List.range n).countP (fun k => decide (k ≠ 0)) := by
      apply List.countP_congr
      intro k hk
      rw [hst k (List.mem_range.mp hk)]
      by_cases hk0 : k = 0
      · simp [hk0, hi, HEAD_OF_SEQUENCE, FREE]
      · simp [hk0, FREE]
    rw [hc, countP_range_ne_zero]
    have hW : n < WORD := by
      unfold FRAME_SIZE at h1; unfold WORD; omega
    unfold usub
    unfold WORD at hW ⊢
    omega
  · rw [if_neg hi]
    have hc : (List.range n).countP (fun k => frameState p k == FREE) =
        (List.range n).countP (fun _ => true) := by
      apply List.countP_congr
      intro k hk
      rw [hst k (List.mem_range.mp hk)]
      simp [hi, FREE]
    rw [hc, countP_range_true]

/-! ## Sequences of `mark_inaccessible` calls -/

/-- A `mark_inaccessible` call keeps `n_frames` and `nFreeFrames` and never turns a frame
`FREE`. -/
theorem mark_inaccessible_keeps (p : ContFramePool) (b n : Nat) :
    (mark_inaccessible p b n).n_frames = p.n_frames ∧
    (mark_inaccessible p b n).nFreeFrames = p.nFreeFrames ∧
    ∀ k, frameState (mark_inaccessible p b n) k = FREE → frameState p k = FREE :=
  ⟨rfl, rfl, fun k h => markLoop_free _ _ _ _ _ k h⟩

/-- The same along a sequence of `mark_inaccessible` calls. -/
theorem runCalls_marks_keep :
    ∀ (calls : List Call) (p s : ContFramePool),
      (∀ c ∈ calls, Call.isMark c = true) → runCalls p calls = some s →
      s.n_frames = p.n_frames ∧ s.nFreeFrames = p.nFreeFrames ∧
      ∀ k, frameState s k = FREE → frameState p k = FREE := by
  intro calls
  induction calls with
  | nil =>
    intro p s _ h
    have hp : p = s := Option.some.inj h
    subst hp
    exact ⟨rfl, rfl, fun _ h => h⟩
  | cons c cs ih =>
    intro p s hm h
    cases c with
    | get n => exact absurd (hm _ (List.mem_cons_self _ _)) (by simp [Call.isMark])
    | release f => exact absurd (hm _ (List.mem_cons_self _ _)) (by simp [Call.isMark])
    | mark b n =>
      simp only [runCalls, Call.run] at h
      by_cases hr : p.base_frame_no ≤ b ∧ b + n ≤ p.base_frame_no + p.n_frames
      · rw [if_pos hr] at h
        change runCalls (mark_inaccessible p b n) cs = some s at h
        obtain ⟨h1, h2, h3⟩ :=
          ih (mark_inaccessible p b n) s (fun c hc => hm c (List.mem_cons_of_mem _ hc)) h
        obtain ⟨k1, k2, k3⟩ := mark_inaccessible_keeps p b n
        exact ⟨h1.trans k1, h2.trans k2, fun k hk => k3 k (h3 k hk)⟩
      · rw [if_neg hr] at h
        exact absurd h (by simp)

/-- C5 (amended): in a freshly constructed pool with at least one frame `nFreeFrames` is
the number of `FREE` frames; `mark_inaccessible` does not touch `nFreeFrames`, so in
every state reached from that pool by `mark_inaccessible` calls on ranges inside the
pool `nFreeFrames` still has its value at construction and is at least the number of
`FREE` frames. -/
theorem free_count_after_marks (mem : Nat → Nat) (base n info ninfo : Nat)
    (p s : ContFramePool) (calls : List Call)
    (hp : construct mem base n info ninfo = some p) (hn : 0 < n)
    (hm : ∀ c ∈ calls, Call.isMark c = true) (hs : runCalls p calls = some s) :
    p.nFreeFrames = countFree p ∧ s.nFreeFrames = p.nFreeFrames ∧
    countFree s ≤ s.nFreeFrames := by
  have h0 := construct_countFree mem base n info ninfo p hp hn
  obtain ⟨h1, h2, h3⟩ := runCalls_marks_keep calls p s hm hs
  refine ⟨h0, h2, ?_⟩
  rw [h2, h0]
  unfold countFree
  rw [h1]
  apply List.countP_mono_left
  intro k _ hk
  have hk' : frameState s k = FREE := by simpa using hk
  simpa using h3 k hk'

/-- Witness for C5 (amended): the self-hosted pool of 16 frames at 512 and the
call `mark_inaccessible(516, 4)`; the count of `FREE` frames drops to 11 and
`nFreeFrames` stays 15. -/
theorem free_count_after_marks_witness :
    ∃ p s, construct (fun _ => 0) 512 16 0 0 = some p ∧
      runCalls p [Call.mark 516 4] = some s ∧
      (p.nFreeFrames = countFree p ∧ s.nFreeFrames = p.nFreeFrames ∧
        countFree s ≤ s.nFreeFrames) ∧
      countFree s = 11 ∧ s.nFreeFrames = 15 :=
  ⟨_, _, rfl, rfl,
    free_count_after_marks (fun _ => 0) 512 16 0 0 _ _ [Call.mark 516 4] rfl (by decide)
      (by decide) rfl,
    by decide!, by decide!⟩

/-- C5 (counterexample): the state reached from the fresh self-hosted pool of 16 frames at
512 by the single call `mark_inaccessible(516, 4)`, a range inside the pool, has
`nFreeFrames = 15` and 11 `FREE` frames. -/
theorem free_count_invariant_fails :
    ∃ p s, construct (fun _ => 0) 512 16 0 0 = some p ∧
      runCalls p [Call.mark 516 4] = some s ∧
      s.nFreeFrames = 15 ∧ countFree s = 11 ∧ s.nFreeFrames ≠ countFree s :=
  ⟨_, _, rfl, rfl, by decide!, by decide!, by decide!⟩

/-! ## The assertion of `get_frames` -/

/-- C7: `get_frames(n)` fails its assertion exactly when `nFreeFrames <= n`; the pool at
the abort is the pool of the call, unchanged; in every other case the call returns; in
particular a request for exactly `nFreeFrames` frames aborts. -/
theorem get_frames_abort_iff (p : ContFramePool) (n : Nat) :
    ((∃ s, get_frames p n = Outcome.abort s) ↔ p.nFreeFrames ≤ n) ∧
    (∀ s, get_frames p n = Outcome.abort s → s = p) ∧
    (n < p.nFreeFrames → ∃ f s, get_frames p n = Outcome.ret f s) ∧
    get_frames p p.nFreeFrames = Outcome.abort p := by
  have habort : ∀ m, p.nFreeFrames ≤ m → get_frames p m = Outcome.abort p := by
    intro m hm
    unfold get_frames
    rw [if_pos (by simpa using hm)]
  refine ⟨⟨?_, fun h => ⟨p, habort n h⟩⟩, ?_, get_frames_returns p n, habort _ (le_refl _)⟩
  · rintro ⟨s, hs⟩
    by_contra hlt
    obtain ⟨f, t, ht⟩ := get_frames_returns p n (by omega)
    rw [ht] at hs
    exact Outcome.noConfusion hs
  · intro s hs
    by_cases hle : p.nFreeFrames ≤ n
    · rw [habort n hle] at hs
      exact (Outcome.abort.inj hs).symm
    · obtain ⟨f, t, ht⟩ := get_frames_returns p n (by omega)
      rw [ht] at hs
      exact Outcome.noConfusion hs

/-- Boundary case for C7: in the fresh self-hosted pool of 16 frames at
512 the 15 frames at offsets 1 to 15 are `FREE` and contiguous and `nFreeFrames = 15`,
yet `get_frames(15)` aborts, while `get_frames(14)` returns. -/
theorem get_frames_abort_iff_witness :
    ∃ p, construct (fun _ => 0) 512 16 0 0 = some p ∧
      p.nFreeFrames = 15 ∧ isFreeRun p 1 15 = true ∧
      get_frames p 15 = Outcome.abort p ∧
      (∃ f s, get_frames p 14 = Outcome.ret f s) :=
  ⟨_, rfl, by decide!, by decide!, (get_frames_abort_iff _ 15).2.2.2,
    (get_frames_abort_iff _ 14).2.2.1 (by decide!)⟩

/-! ## The marking of `mark_inaccessible` -/

/-- C10 (amended): in a pool whose base frame number is a multiple of 4, after
`mark_inaccessible(b, n)` on a range inside the pool every frame of the range that was
`FREE` or `INACCESSIBLE` before, or whose offset in the pool is a multiple of 4, is
`INACCESSIBLE` (`10`). -/
theorem mark_inaccessible_marks (p : ContFramePool) (b n k : Nat)
    (halign : p.base_frame_no % 4 = 0)
    (hfit : p.base_frame_no + p.n_frames < WORD)
    (hlo : p.base_frame_no ≤ b) (hhi : b + n ≤ p.base_frame_no + p.n_frames)
    (hk : b ≤ k ∧ k < b + n)
    (hprev : frameState p (k - p.base_frame_no) = FREE ∨
      frameState p (k - p.base_frame_no) = INACCESSIBLE ∨ (k - p.base_frame_no) % 4 = 0) :
    frameState (mark_inaccessible p b n) (k - p.base_frame_no) = INACCESSIBLE := by
  unfold mark_inaccessible frameState
  simp only
  have he : (b + n) % WORD = b + n := Nat.mod_eq_of_lt (by omega)
  rw [he, markLoop_slot p.base_frame_no (b + n) halign (by omega) (b + n - b) b p.bitmap hlo
    (by omega) (k - p.base_frame_no)]
  have hin : b ≤ p.base_frame_no + (k - p.base_frame_no) ∧
      p.base_frame_no + (k - p.base_frame_no) < b + n := by omega
  rw [if_pos hin]
  by_cases h4 : (k - p.base_frame_no) % 4 = 0
  · rw [if_pos h4]
  · rw [if_neg h4]
    have hv := (slot_or_inaccessible _
      (slot_lt (rd p.bitmap ((k - p.base_frame_no) / 4)) ((k - p.base_frame_no) % 4))).1
    apply hv.mpr
    rcases hprev with h | h | h
    · exact Or.inl h
    · exact Or.inr h
    · exact absurd h h4

/-- Witness for C10 (amended): frame 517 of the fresh self-hosted pool of 16
frames at 512 is `FREE`, and `INACCESSIBLE` after `mark_inaccessible(516, 4)`. -/
theorem mark_inaccessible_marks_witness :
    ∃ p, construct (fun _ => 0) 512 16 0 0 = some p ∧
      frameState p (517 - p.base_frame_no) = FREE ∧
      frameState (mark_inaccessible p 516 4) (517 - p.base_frame_no) = INACCESSIBLE :=
  ⟨_, rfl, by decide!,
    mark_inaccessible_marks _ 516 4 517 (by decide!) (by decide!) (by decide!) (by decide!)
      (by decide!) (Or.inl (by decide!))⟩

/-- C10 (counterexample): after `mark_inaccessible(516, 4)` on the fresh self-hosted pool
of 16 frames at 512 the frames 516 to 519 are all `INACCESSIBLE`: frame 516 is not
`HEAD_OF_SEQUENCE` and frames 517 to 519 are not `ALLOCATED`. -/
theorem mark_inaccessible_not_head_allocated :
    ∃ p, construct (fun _ => 0) 512 16 0 0 = some p ∧
      frameStates (mark_inaccessible p 516 4) =
        [1, 0, 0, 0, 2, 2, 2, 2, 0, 0, 0, 0, 0, 0, 0, 0] ∧
      frameState (mark_inaccessible p 516 4) 4 ≠ HEAD_OF_SEQUENCE ∧
      frameState (mark_inaccessible p 516 4) 5 ≠ ALLOCATED :=
  ⟨_, rfl, by decide!, by decide!, by decide!⟩

/-! ## Further behaviour on concrete pools -/

/-- C11: a frame carved out by `mark_inaccessible` is handed out.  On the fresh
self-hosted pool of 16 frames at 512, after `mark_inaccessible(517, 1)` frame 517 is
`INACCESSIBLE`; the next `get_frames(1)` returns frame 517, a frame of the marked range,
and turns it into `HEAD_OF_SEQUENCE`. -/
theorem get_frames_returns_inaccessible_frame :
    ∃ p s, construct (fun _ => 0) 512 16 0 0 = some p ∧
      runCalls p [Call.mark 517 1] = some s ∧
      frameStates s = [1, 0, 0, 0, 0, 2, 0, 0, 0, 0, 0, 0, 0, 0, 0, 0] ∧
      (get_frames s 1).frame = some 517 ∧
      (get_frames s 1).pool.map frameStates =
        some [1, 0, 0, 0, 0, 1, 0, 0, 0, 0, 0, 0, 0, 0, 0, 0] :=
  ⟨_, _, rfl, rfl, by decide!, by decide!, by decide!⟩

/-- C14: `needed_info_frames` is not the rounded-up quotient.  It returns 16385 for 16
frames, 16777216 for 16384 frames and 16777217 for 16385 frames, where the bitmap
needs 1, 1 and 2 frames; only for 0 frames do the two agree. -/
theorem needed_info_frames_not_ceiling :
    needed_info_frames 16 = 16385 ∧ needed_info_frames_spec 16 = 1 ∧
    needed_info_frames 16384 = 16777216 ∧ needed_info_frames_spec 16384 = 1 ∧
    needed_info_frames 16385 = 16777217 ∧ needed_info_frames_spec 16385 = 2 ∧
    needed_info_frames 0 = 0 ∧ needed_info_frames_spec 0 = 0 := by
  decide!

/-- C17: an `ALLOCATED` frame without a head before it.  After `get_frames(3)` on the
fresh self-hosted pool of 16 frames at 512 frame 5 is `ALLOCATED` and frame 4 is
`FREE`; after `get_frames(2)` on the fresh externally hosted pool frame 0 of the pool
is `ALLOCATED`. -/
theorem allocated_without_head :
    (∃ p, construct (fun _ => 0) 512 16 0 0 = some p ∧
      (runCalls p [Call.get 3]).map frameStates =
        some [1, 0, 0, 0, 0, 3, 0, 0, 0, 0, 0, 0, 0, 0, 0, 0] ∧
      (runCalls p [Call.get 3]).map (fun s => frameState s 5) = some ALLOCATED ∧
      (runCalls p [Call.get 3]).map (fun s => frameState s 4) = some FREE) ∧
    (∃ p, construct (fun _ => 0) 512 16 100 1 = some p ∧
      (runCalls p [Call.get 2]).map frameStates =
        some [3, 0, 0, 0, 0, 0, 0, 0, 0, 0, 0, 0, 0, 0, 0, 0] ∧
      (runCalls p [Call.get 2]).map (fun s => frameState s 0) = some ALLOCATED) :=
  ⟨⟨_, rfl, by decide!, by decide!, by decide!⟩, ⟨_, rfl, by decide!, by decide!⟩⟩

/-- C18: with a base that is not a multiple of 4, `mark_inaccessible` changes a frame
outside its range.  In the fresh externally hosted pool of 16 frames at 513,
`mark_inaccessible(513, 1)` leaves frame 513 (offset 0) `FREE` and turns frame 514
(offset 1), which is outside the range, from `FREE` into `INACCESSIBLE`;
`nFreeFrames` stays 16. -/
theorem mark_inaccessible_outside_range :
    ∃ p, construct (fun _ => 0) 513 16 100 1 = some p ∧
      frameStates p = [0, 0, 0, 0, 0, 0, 0, 0, 0, 0, 0, 0, 0, 0, 0, 0] ∧
      frameStates (mark_inaccessible p 513 1) =
        [0, 2, 0, 0, 0, 0, 0, 0, 0, 0, 0, 0, 0, 0, 0, 0] ∧
      p.nFreeFrames = 16 ∧ (mark_inaccessible p 513 1).nFreeFrames = 16 :=
  ⟨_, rfl, by decide!, by decide!, by decide!, by decide!⟩

/-- C19: `get_frames` reads and writes bitmap bytes beyond `n_frames / 4`.  (a) Two
self-hosted pools of 8 frames at 512 that agree on `nFreeFrames` and on the bytes 0
and 1 of their bitmaps, and differ only in later bytes, get different results from
`get_frames(2)`: 517 and 0.  (b) In the externally hosted pool of 8 frames at 512 with
frames 512 and 516 marked, `get_frames(1)` returns 522, a frame outside the pool, and
changes byte 2 of the bitmap from `0x00` to `0x04`. -/
theorem get_frames_leaves_bitmap :
    (∃ p q, construct (fun _ => 0) 512 8 0 0 = some p ∧
      construct (fun _ => 0xFF) 512 8 0 0 = some q ∧
      p.n_frames / 4 = 2 ∧ q.n_frames / 4 = 2 ∧ p.nFreeFrames = q.nFreeFrames ∧
      (∀ i < 2, rd p.bitmap i = rd q.bitmap i) ∧
      (get_frames p 2).frame = some 517 ∧ (get_frames q 2).frame = some 0) ∧
    (∃ r s, construct (fun _ => 0) 512 8 100 1 = some r ∧
      runCalls r [Call.mark 512 1, Call.mark 516 1] = some s ∧
      s.n_frames / 4 = 2 ∧ rd s.bitmap 2 = 0x00 ∧
      (get_frames s 1).frame = some 522 ∧
      (get_frames s 1).pool.map (fun t => rd t.bitmap 2) = some 0x04) :=
  ⟨⟨_, _, rfl, rfl, by decide!, by decide!, by decide!, by decide!, by decide!, by decide!⟩,
    ⟨_, _, rfl, rfl, by decide!, by decide!, by decide!, by decide!⟩⟩

/-- C20: `get_frames(0)` is not a no-op.  On the fresh externally hosted pool of 16
frames at 512 (`nFreeFrames = 16 > 0`, frame 512 `FREE`) `get_frames(0)` returns 512
and leaves frame 512 `HEAD_OF_SEQUENCE`; `nFreeFrames` stays 16. -/
theorem get_frames_zero_marks_head :
    ∃ p, construct (fun _ => 0) 512 16 100 1 = some p ∧
      p.nFreeFrames = 16 ∧ frameState p 0 = FREE ∧
      (get_frames p 0).frame = some 512 ∧
      (get_frames p 0).pool.map (fun s => (frameStates s, s.nFreeFrames)) =
        some ([1, 0, 0, 0, 0, 0, 0, 0, 0, 0, 0, 0, 0, 0, 0, 0], 16) :=
  ⟨_, rfl, by decide!, by decide!, by decide!, by decide!⟩

/-- C12 (counterexample): on the fresh self-hosted pool of 16 frames at 512, after
`mark_inaccessible(517, 3)` the call `release_frames(517)` leaves frame 517
`INACCESSIBLE`, not `FREE`. -/
theorem mark_then_release_not_free :
    ∃ p s, construct (fun _ => 0) 512 16 0 0 = some p ∧
      runCalls p [Call.mark 517 3] = some s ∧
      frameStates s = [1, 0, 0, 0, 0, 2, 2, 2, 0, 0, 0, 0, 0, 0, 0, 0] ∧
      (release_frames [s] 517).map (List.map frameStates) =
        some [[1, 0, 0, 0, 0, 2, 0, 0, 0, 0, 0, 0, 0, 0, 0, 0]] :=
  ⟨_, _, rfl, rfl, by decide!, by decide!⟩

/-! ## More on the constructor -/

/-- The constructor accepts exactly the sizes that pass its two assertions. -/
theorem construct_accepts (mem : Nat → Nat) (base n info ninfo : Nat)
    (h1 : n ≤ FRAME_SIZE * 8) (h2 : n % 8 = 0) :
    ∃ p, construct mem base n info ninfo = some p := by
  unfold construct
  rw [if_neg (not_not.mpr h1), if_neg (not_not.mpr h2)]
  by_cases hi : info = 0
  · simp only [hi, if_true]; exact ⟨_, rfl⟩
  · simp only [hi, if_false]; exact ⟨_, rfl⟩

/-- Bytes of the bitmap memory after the constructor: byte 0 of a self-hosted pool is
`0x40`, the other bytes below `n_frames / 4` (rounded up) are `0x00`, later bytes keep
what the memory held. -/
theorem construct_bytes (mem : Nat → Nat) (base n info ninfo : Nat) (p : ContFramePool)
    (h : construct mem base n info ninfo = some p) (k : Nat) :
    rd p.bitmap k =
      if k = 0 ∧ info = 0 then 0x40 else if k * 4 < n then 0x00 else rd mem k := by
  unfold construct at h
  by_cases h1 : n ≤ FRAME_SIZE * 8
  · by_cases h2 : n % 8 = 0
    · rw [if_neg (not_not.mpr h1), if_neg (not_not.mpr h2)] at h
      simp only at h
      have hb : rd (initLoop n n 0 mem) k = if k * 4 < n then 0x00 else rd mem k := by
        unfold rd
        rw [initLoop_apply n n 0 mem k (by omega)]
        by_cases hk : k * 4 < n
        · rw [if_pos ⟨Nat.zero_le _, hk⟩, if_pos hk]
        · rw [if_neg (fun hc => hk hc.2), if_neg hk]
      by_cases hi : info = 0
      · rw [if_pos hi] at h
        have hp : p = _ := (Option.some.inj h).symm
        subst hp
        simp only
        rw [rd_wr]
        by_cases hk0 : k = 0
        · rw [if_pos hk0, if_pos ⟨hk0, hi⟩]
        · rw [if_neg hk0, if_neg (fun hc => hk0 hc.1), hb]
      · rw [if_neg hi] at h
        have hp : p = _ := (Option.some.inj h).symm
        subst hp
        simp only
        rw [if_neg (fun hc => hi hc.2), hb]
    · rw [if_neg (not_not.mpr h1), if_pos h2] at h
      exact Option.noConfusion h
  · rw [if_pos h1] at h
    exact Option.noConfusion h

/-- C15: the size assertion of the constructor admits a bitmap of two frames.  The
constructor accepts `n_frames = 8 * FRAME_SIZE`; the bitmap of that pool has
`n_frames / 4 = 2 * FRAME_SIZE` bytes, and the constructor initialises the bytes
`FRAME_SIZE` to `2 * FRAME_SIZE - 1`, which lie behind the first frame (memory that
held `0xFF` before holds `0x00` there afterwards). -/
theorem construct_bitmap_exceeds_frame :
    ∃ p, construct (fun _ => 0xFF) 512 (8 * FRAME_SIZE) 0 0 = some p ∧
      p.n_frames / 4 = 2 * FRAME_SIZE ∧ FRAME_SIZE < p.n_frames / 4 ∧
      rd p.bitmap FRAME_SIZE = 0x00 ∧ rd p.bitmap (2 * FRAME_SIZE - 1) = 0x00 ∧
      rd p.bitmap (2 * FRAME_SIZE) = 0xFF := by
  obtain ⟨p, hp⟩ := construct_accepts (fun _ => 0xFF) 512 (8 * FRAME_SIZE) 0 0
    (by unfold FRAME_SIZE; omega) (by unfold FRAME_SIZE; omega)
  have hn : p.n_frames = 8 * FRAME_SIZE := (construct_spec _ _ _ _ _ p hp).2.2.2.1
  have hb := construct_bytes _ _ _ _ _ p hp
  refine ⟨p, hp, ?_, ?_, ?_, ?_, ?_⟩
  · rw [hn]; unfold FRAME_SIZE; omega
  · rw [hn]; unfold FRAME_SIZE; omega
  · rw [hb]; unfold FRAME_SIZE rd; norm_num
  · rw [hb]; unfold FRAME_SIZE rd; norm_num
  · rw [hb]; unfold FRAME_SIZE rd; norm_num

/-- C13: the constructor's postcondition.  For every size that passes the two assertions
the constructor returns a pool with the given base and size; self-hosted, frame 0 is
`HEAD_OF_SEQUENCE`, every other frame is `FREE` and `nFreeFrames` is `n_frames - 1`
(computed on machine words; for `n_frames > 0` this is the number `n_frames - 1`, and
it is the number of `FREE` frames); externally hosted, every frame is `FREE` and
`nFreeFrames` is `n_frames`. -/
theorem construct_postcondition (mem : Nat → Nat) (base n info ninfo : Nat)
    (h8 : n % 8 = 0) (hsz : n ≤ 8 * FRAME_SIZE) :
    ∃ p, construct mem base n info ninfo = some p ∧
      p.base_frame_no = base ∧ p.n_frames = n ∧
      (info = 0 →
        frameState p 0 = HEAD_OF_SEQUENCE ∧
        (∀ k, 0 < k → k < n → frameState p k = FREE) ∧
        p.nFreeFrames = usub n 1 ∧
        (0 < n → p.nFreeFrames = n - 1 ∧ countFree p = n - 1)) ∧
      (info ≠ 0 →
        (∀ k, k < n → frameState p k = FREE) ∧
        p.nFreeFrames = n ∧ countFree p = n) := by
  obtain ⟨p, hp⟩ := construct_accepts mem base n info ninfo (by omega) h8
  obtain ⟨h1, _, hb, hn, hfree, hst⟩ := construct_spec mem base n info ninfo p hp
  refine ⟨p, hp, hb, hn, ?_, ?_⟩
  · intro hi
    have hnf : p.nFreeFrames = usub n 1 := by rw [hfree, if_pos hi]
    refine ⟨?_, ?_, hnf, ?_⟩
    · unfold frameState
      rw [construct_bytes mem base n info ninfo p hp, if_pos ⟨by norm_num, hi⟩]
      decide
    · intro k hk0 hk
      rw [hst k hk, if_neg (fun hc => by omega)]
    · intro hpos
      have hc := construct_countFree mem base n info ninfo p hp hpos
      have hv : p.nFreeFrames = n - 1 := by
        rw [hnf]
        unfold usub
        unfold FRAME_SIZE at h1
        unfold WORD
        omega
      exact ⟨hv, by rw [← hc, hv]⟩
  · intro hi
    have hnf : p.nFreeFrames = n := by rw [hfree, if_neg hi]
    refine ⟨fun k hk => by rw [hst k hk, if_neg (fun hc => hi hc.2)], hnf, ?_⟩
    by_cases hpos : 0 < n
    · rw [← construct_countFree mem base n info ninfo p hp hpos, hnf]
    · have h0 : n = 0 := by omega
      unfold countFree
      rw [hn, h0]
      rfl

/-- Witness for C13: the self-hosted pool of 16 frames at 512. -/
theorem construct_postcondition_witness :
    ∃ p, construct (fun _ => 0) 512 16 0 0 = some p ∧
      p.base_frame_no = 512 ∧ p.n_frames = 16 ∧
      ((0 : Nat) = 0 →
        frameState p 0 = HEAD_OF_SEQUENCE ∧
        (∀ k, 0 < k → k < 16 → frameState p k = FREE) ∧
        p.nFreeFrames = usub 16 1 ∧
        (0 < 16 → p.nFreeFrames = 16 - 1 ∧ countFree p = 16 - 1)) ∧
      ((0 : Nat) ≠ 0 →
        (∀ k, k < 16 → frameState p k = FREE) ∧
        p.nFreeFrames = 16 ∧ countFree p = 16) :=
  construct_postcondition (fun _ => 0) 512 16 0 0 (by decide) (by decide)

/-! ## The registry -/

/-- With more steps than objects, the walk along a chain lists the chain. -/
theorem walk_of_chain (r : Registry) :
    ∀ (ids : List Nat) (cur : Option Nat) (fuel : Nat),
      IsChain r.next cur ids → ids.length < fuel → walk r fuel cur = ids := by
  intro ids
  induction ids with
  | nil =>
    intro cur fuel h hf
    have hc : cur = none := h
    subst hc
    cases fuel with
    | zero => rfl
    | succ k => rfl
  | cons a rest ih =>
    intro cur fuel h hf
    obtain ⟨hc, hrest⟩ := h
    subst hc
    cases fuel with
    | zero => exact absurd hf (Nat.not_lt_zero _)
    | succ k =>
      show a :: walk r k (r.next a) = a :: rest
      rw [ih (r.next a) k hrest (by simpa using hf)]

/-- Appending the object `t` behind the last object `l` of a chain of distinct objects
that does not contain `t`. -/
theorem chain_append (next : Nat → Option Nat) (t l : Nat) :
    ∀ (init : List Nat) (cur : Option Nat),
      IsChain next cur (init ++ [l]) → (init ++ [l]).Nodup → t ∉ init ++ [l] →
      IsChain (fun a => if a = t then none else if a = l then some t else next a) cur
        (init ++ [l] ++ [t]) := by
  intro init
  induction init with
  | nil =>
    intro cur h _ ht
    obtain ⟨hc, _⟩ := h
    have hlt : l ≠ t := fun e => ht (by simp [e])
    refine ⟨hc, ?_, ?_⟩
    · show (if l = t then none else if l = l then some t else next l) = some t
      rw [if_neg hlt, if_pos rfl]
    · show (if t = t then none else if t = l then some t else next t) = none
      rw [if_pos rfl]
  | cons a rest ih =>
    intro cur h hnd ht
    obtain ⟨hc, hrest⟩ := h
    have hat : a ≠ t := fun e => ht (by simp [e])
    have hal : a ≠ l := by
      intro e
      have hnd' : a ∉ rest ++ [l] := (List.nodup_cons.mp hnd).1
      exact hnd' (by simp [e])
    refine ⟨hc, ?_⟩
    show IsChain _ (if a = t then none else if a = l then some t else next a)
      (rest ++ [l] ++ [t])
    rw [if_neg hat, if_neg hal]
    exact ih (next a) hrest (List.nodup_cons.mp hnd).2
      (fun hm => ht (List.mem_cons_of_mem _ hm))

theorem link_of_none (r : Registry) (t : Nat) (hh : r.node_head = none) :
    link r t = { node_head := some t, list := some t,
                 next := fun a => if a = t then none else r.next a } := by
  unfold link; rw [hh]

theorem link_of_some (r : Registry) (t h l : Nat) (hh : r.node_head = some h)
    (hl : r.list = some l) :
    link r t = { node_head := some h, list := some t,
                 next := fun a => if a = t then none else if a = l then some t else r.next a } := by
  unfold link; rw [hh]; simp only [hl]

/-- After the constructors of distinct objects ran in the order of `ids`, the registry is
empty for no object, and otherwise `list` is the last object and the chain from
`node_head` is `ids`. -/
theorem link_chain :
    ∀ (ids : List Nat), ids.Nodup →
      (ids = [] ∧ (ids.foldl link Registry.empty).node_head = none) ∨
      (∃ init l, ids = init ++ [l] ∧ (ids.foldl link Registry.empty).list = some l ∧
        (∃ h, (ids.foldl link Registry.empty).node_head = some h) ∧
        IsChain (ids.foldl link Registry.empty).next
          (ids.foldl link Registry.empty).node_head ids) := by
  intro ids
  induction ids using List.reverseRecOn with
  | nil => intro _; exact Or.inl ⟨rfl, rfl⟩
  | append_singleton init t ih =>
    intro hnd
    right
    have hnd' : init.Nodup := (List.nodup_append.mp hnd).1
    have ht : t ∉ init := by
      intro hm
      have := (List.nodup_append.mp hnd).2.2
      exact this hm (List.mem_singleton_self t)
    rw [List.foldl_append, List.foldl_cons, List.foldl_nil]
    generalize List.foldl link Registry.empty init = r at ih ⊢
    rcases ih hnd' with ⟨he, hh⟩ | ⟨init', l, he, hl, ⟨h, hh⟩, hch⟩
    · subst he
      rw [link_of_none r t hh]
      refine ⟨[], t, rfl, rfl, ⟨t, rfl⟩, rfl, ?_⟩
      show (if t = t then none else r.next t) = none
      rw [if_pos rfl]
    · rw [link_of_some r t h l hh hl]
      refine ⟨init, t, rfl, rfl, ⟨h, rfl⟩, ?_⟩
      have hc := chain_append r.next t l init' r.node_head (he ▸ hch) (he ▸ hnd')
        (he ▸ ht)
      rw [hh] at hc
      rw [he]
      exact hc

/-- Traversing the registry from `node_head` after the constructors of distinct objects
ran in the order of `ids` yields `ids` and ends at `NULL`. -/
theorem walk_registry (ids : List Nat) (hnd : ids.Nodup) :
    walk (ids.foldl link Registry.empty) (ids.length + 1)
      (ids.foldl link Registry.empty).node_head = ids := by
  rcases link_chain ids hnd with ⟨he, hh⟩ | ⟨_, _, _, _, _, hch⟩
  · subst he; rfl
  · exact walk_of_chain _ ids _ _ hch (Nat.lt_succ_self _)

/-- The list form of the registry: appending in construction order gives the pools in
construction order. -/
theorem register_order (pools : List ContFramePool) :
    ∀ acc : List ContFramePool, pools.foldl register acc = acc ++ pools := by
  induction pools with
  | nil => intro acc; simp
  | cons p rest ih => intro acc; rw [List.foldl_cons, ih]; simp [register]

/-- The registry walk of `release_frames` stops at the first pool whose range contains
the frame. -/
theorem findOwner_first (f : Nat) :
    ∀ (pools : List ContFramePool) (k : Nat) (cur : ContFramePool),
      (∀ p ∈ pools, p.base_frame_no + p.n_frames < WORD) →
      pools[k]? = some cur → owns cur f →
      (∀ j p, j < k → pools[j]? = some p → ¬ owns p f) →
      findOwner f pools = some k := by
  intro pools
  induction pools with
  | nil => intro k cur _ hc; simp at hc
  | cons q rest ih =>
    intro k cur hfit hc hown hfirst
    have hq : (q.base_frame_no + q.n_frames) % WORD = q.base_frame_no + q.n_frames :=
      Nat.mod_eq_of_lt (hfit q (List.mem_cons_self _ _))
    unfold findOwner
    rw [hq]
    cases k with
    | zero =>
      have hcq : q = cur := by simpa using hc
      subst hcq
      have : ¬ (q.base_frame_no > f ∨ f ≥ q.base_frame_no + q.n_frames) := by
        unfold owns at hown; omega
      rw [if_neg this]
    | succ k =>
      have hnq : ¬ owns q f := hfirst 0 q (Nat.succ_pos _) (by simp)
      have : q.base_frame_no > f ∨ f ≥ q.base_frame_no + q.n_frames := by
        unfold owns at hnq; omega
      rw [if_pos this]
      have hrec := ih k cur (fun p hp => hfit p (List.mem_cons_of_mem _ hp))
        (by simpa using hc) hown
        (fun j p hj hp => hfirst (j + 1) p (by omega) (by simpa using hp))
      rw [hrec]
      rfl

/-- The loop of `release_frames` writes no byte behind the bytes of the pool's frames. -/
theorem releaseLoop_footprint (base n : Nat) (hfit : base + n < WORD) (k : Nat)
    (hk : n ≤ k * 4) :
    ∀ (fuel i cr : Nat) (bm : Nat → Nat), base ≤ i →
      releaseLoop base (base + n) fuel i cr bm k = bm k := by
  intro fuel
  induction fuel with
  | zero => intro i cr bm _; rfl
  | succ fuel ih =>
    intro i cr bm hi
    unfold releaseLoop
    by_cases hlt : i < base + n
    · rw [if_pos hlt]
      have hu : usub i base = i - base := usub_eq _ _ hi (by omega)
      split_ifs
      · rfl
      · rw [ih (i + 1) _ _ (by omega)]
        unfold wr
        rw [hu, if_neg (by omega)]
    · rw [if_neg hlt]

/-- A call of `release_frames` for a frame of the pool writes no byte behind the bytes of
the pool's frames. -/
theorem releaseIn_footprint (cur : ContFramePool) (f : Nat)
    (hfit : cur.base_frame_no + cur.n_frames < WORD) (hown : owns cur f) (k : Nat)
    (hk : cur.n_frames ≤ k * 4) :
    (releaseIn cur f).bitmap k = cur.bitmap k := by
  unfold owns at hown
  have hu : usub f cur.base_frame_no = f - cur.base_frame_no :=
    usub_eq _ _ hown.1 (by omega)
  have hb : (cur.base_frame_no + cur.n_frames) % WORD = cur.base_frame_no + cur.n_frames :=
    Nat.mod_eq_of_lt hfit
  have hf : f % WORD = f := Nat.mod_eq_of_lt (by omega)
  unfold releaseIn
  simp only
  rw [hb, hf, releaseLoop_footprint _ _ hfit k hk _ _ _ _ hown.1, hu]
  split_ifs
  · unfold wr
    rw [if_neg (by omega)]
  · rfl

/-- C16: owner resolution.  When the constructors of the pool objects `objs` (address and
pool, distinct addresses) ran in that order, the traversal of the linked registry from
`node_head` yields the objects in that order, and `release_frames(f)` acts on the first
pool in that order whose range contains `f`: the registry afterwards differs from the
one before in that pool only, and there only in bitmap bytes of that pool's frames. -/
theorem release_frames_owner (objs : List (Nat × ContFramePool)) (f k : Nat)
    (cur : ContFramePool)
    (hnd : (objs.map Prod.fst).Nodup)
    (hfit : ∀ p ∈ objs.map Prod.snd, p.base_frame_no + p.n_frames < WORD)
    (hcur : (objs.map Prod.snd)[k]? = some cur) (hown : owns cur f)
    (hfirst : ∀ j p, j < k → (objs.map Prod.snd)[j]? = some p → ¬ owns p f) :
    walk ((objs.map Prod.fst).foldl link Registry.empty) ((objs.map Prod.fst).length + 1)
        ((objs.map Prod.fst).foldl link Registry.empty).node_head = objs.map Prod.fst ∧
    (objs.map Prod.snd).foldl register [] = objs.map Prod.snd ∧
    release_frames ((objs.map Prod.snd).foldl register []) f =
      some ((objs.map Prod.snd).set k (releaseIn cur f)) ∧
    (∀ j, j ≠ k →
      ((objs.map Prod.snd).set k (releaseIn cur f))[j]? = (objs.map Prod.snd)[j]?) ∧
    (∀ i, cur.n_frames ≤ i * 4 → (releaseIn cur f).bitmap i = cur.bitmap i) := by
  have hreg : (objs.map Prod.snd).foldl register [] = objs.map Prod.snd := by
    rw [register_order]; rfl
  refine ⟨walk_registry _ hnd, hreg, ?_, ?_, ?_⟩
  · rw [hreg]
    unfold release_frames
    rw [findOwner_first f _ k cur hfit hcur hown hfirst]
    simp only [List.get?_eq_getElem?, hcur]
  · intro j hj
    rw [List.getElem?_set_ne (Ne.symm hj)]
  · intro i hi
    have hmem : cur ∈ objs.map Prod.snd := List.getElem?_mem hcur
    exact releaseIn_footprint cur f (hfit cur hmem) hown i hi

/-- Witness for C16: the pool `runOfFour` at address 0x200000 and the pool `secondPool`
at address 0x400000, constructed in that order, and `release_frames(1030)`: the walk
passes the first pool and acts on the second. -/
theorem release_frames_owner_witness :
    walk ([0x200000, 0x400000].foldl link Registry.empty) 3
        ([0x200000, 0x400000].foldl link Registry.empty).node_head = [0x200000, 0x400000] ∧
    [runOfFour, secondPool].foldl register [] = [runOfFour, secondPool] ∧
    release_frames ([runOfFour, secondPool].foldl register []) 1030 =
      some ([runOfFour, secondPool].set 1 (releaseIn secondPool 1030)) ∧
    (∀ j, j ≠ 1 →
      ([runOfFour, secondPool].set 1 (releaseIn secondPool 1030))[j]? =
        [runOfFour, secondPool][j]?) ∧
    (∀ i, secondPool.n_frames ≤ i * 4 →
      (releaseIn secondPool 1030).bitmap i = secondPool.bitmap i) :=
  release_frames_owner [(0x200000, runOfFour), (0x400000, secondPool)] 1030 1 secondPool
    (by decide)
    (by
      intro p hp
      have hp' : p = runOfFour ∨ p = secondPool := by simpa using hp
      rcases hp' with h | h <;> subst h <;> decide)
    rfl (by unfold owns; decide)
    (by
      intro j p hj hp
      have hj0 : j = 0 := by omega
      subst hj0
      have hp' : runOfFour = p := by simpa using hp
      subst hp'
      unfold owns
      decide)

/-! ## `release_frames` after `mark_inaccessible` -/

/-- Frame states after `mark_inaccessible` in a pool whose base is a multiple of 4. -/
theorem mark_inaccessible_frameState (p : ContFramePool) (b n k : Nat)
    (halign : p.base_frame_no % 4 = 0)
    (hfit : p.base_frame_no + p.n_frames < WORD)
    (hlo : p.base_frame_no ≤ b) (hhi : b + n ≤ p.base_frame_no + p.n_frames) :
    frameState (mark_inaccessible p b n) k =
      if b ≤ p.base_frame_no + k ∧ p.base_frame_no + k < b + n then
        (if k % 4 = 0 then INACCESSIBLE else frameState p k ||| INACCESSIBLE)
      else frameState p k := by
  unfold mark_inaccessible frameState
  simp only
  have he : (b + n) % WORD = b + n := Nat.mod_eq_of_lt (by omega)
  rw [he, markLoop_slot p.base_frame_no (b + n) halign (by omega) (b + n - b) b p.bitmap hlo
    (by omega) k]

theorem head_test_inaccessible :
    ∀ x < 256, ∀ s < 4, slot x s = INACCESSIBLE →
      ¬ ((x ^^^ (0x80 >>> (s * 2)) % 256) &&& (0xc0 >>> (s * 2)) % 256 =
          (0xc0 >>> (s * 2)) % 256) := by
  decide!

theorem clear_keeps_inaccessible :
    ∀ s < 4, ∀ m < 32, ∀ x < 256,
      1 ≤ s ∧ m < 2 ^ (7 - 2 * s) ∧ slot x s = INACCESSIBLE →
      slot ((x &&& cpl m) % 256) s = INACCESSIBLE := by
  decide!

theorem first_mask_below :
    ∀ s < 4, 1 ≤ s → (((0xc0 >>> (s * 2)) % 256) >>> s) % 256 < 2 ^ (7 - 2 * s) := by
  decide!

theorem mask_bound_lt : ∀ s < 4, 1 ≤ s → 2 ^ (7 - 2 * s) ≤ 32 := by decide!

/-- The loop of `release_frames` leaves an `INACCESSIBLE` state in slot `s >= 1` of byte
`idx` alone once its mask lies below that slot. -/
theorem releaseLoop_keeps (base bound idx s : Nat) (hs4 : s < 4) (hs1 : 1 ≤ s) :
    ∀ (fuel i cr : Nat) (bm : Nat → Nat),
      (cr >>> (usub i base % 4)) % 256 < 2 ^ (7 - 2 * s) →
      slot (rd bm idx) s = INACCESSIBLE →
      slot (rd (releaseLoop base bound fuel i cr bm) idx) s = INACCESSIBLE := by
  intro fuel
  induction fuel with
  | zero => intro i cr bm _ h; exact h
  | succ fuel ih =>
    intro i cr bm hcr h
    unfold releaseLoop
    by_cases hlt : i < bound
    · rw [if_pos hlt]
      dsimp only
      split_ifs
      · exact h
      · apply ih
        · have h1 : (((cr >>> (usub i base % 4)) % 256) >>> (usub (i + 1) base % 4)) ≤
              (cr >>> (usub i base % 4)) % 256 := by
            rw [Nat.shiftRight_eq_div_pow]
            exact Nat.div_le_self _ _
          exact lt_of_le_of_lt (Nat.mod_le _ _) (lt_of_le_of_lt h1 hcr)
        · rw [rd_wr]
          split_ifs with hidx
          · have hm32 : (cr >>> (usub i base % 4)) % 256 < 32 :=
              lt_of_lt_of_le hcr (mask_bound_lt s hs4 hs1)
            rw [← hidx]
            exact clear_keeps_inaccessible s hs4 _ hm32 _ (rd_lt _ _) ⟨hs1, hcr, h⟩
          · exact h
    · rw [if_neg hlt]
      exact h

/-- C12 (amended): in a pool whose base is a multiple of 4, let `b` be the first frame of
a range inside the pool, at an offset that is not a multiple of 4, and `FREE` or
`INACCESSIBLE` before.  After `mark_inaccessible(b, n)` frame `b` is `INACCESSIBLE`,
which is not a head, and `release_frames(b)` on the registered pool does not free it:
frame `b` is still `INACCESSIBLE` afterwards. -/
theorem mark_then_release_keeps_inaccessible (p : ContFramePool) (b n : Nat)
    (halign : p.base_frame_no % 4 = 0)
    (hfit : p.base_frame_no + p.n_frames < WORD)
    (hlo : p.base_frame_no ≤ b) (hn : 0 < n)
    (hhi : b + n ≤ p.base_frame_no + p.n_frames)
    (hoff : (b - p.base_frame_no) % 4 ≠ 0)
    (hprev : frameState p (b - p.base_frame_no) = FREE ∨
      frameState p (b - p.base_frame_no) = INACCESSIBLE) :
    frameState (mark_inaccessible p b n) (b - p.base_frame_no) = INACCESSIBLE ∧
    release_frames [mark_inaccessible p b n] b =
      some [releaseIn (mark_inaccessible p b n) b] ∧
    frameState (releaseIn (mark_inaccessible p b n) b) (b - p.base_frame_no) =
      INACCESSIBLE := by
  have hmark : frameState (mark_inaccessible p b n) (b - p.base_frame_no) = INACCESSIBLE := by
    rw [mark_inaccessible_frameState p b n _ halign hfit hlo hhi, if_pos (by omega),
      if_neg hoff]
    exact (slot_or_inaccessible _ (slot_lt _ _)).1.mpr hprev
  have hs4 : (b - p.base_frame_no) % 4 < 4 := Nat.mod_lt _ (by norm_num)
  have hs1 : 1 ≤ (b - p.base_frame_no) % 4 := by omega
  have hu : usub b p.base_frame_no = b - p.base_frame_no := usub_eq _ _ hlo (by omega)
  have hbw : b % WORD = b := Nat.mod_eq_of_lt (by omega)
  refine ⟨hmark, ?_, ?_⟩
  · have hsum : ((mark_inaccessible p b n).base_frame_no +
        (mark_inaccessible p b n).n_frames) % WORD = p.base_frame_no + p.n_frames :=
      Nat.mod_eq_of_lt hfit
    have hno : ¬ ((mark_inaccessible p b n).base_frame_no > b ∨
        b ≥ p.base_frame_no + p.n_frames) := by
      have : (mark_inaccessible p b n).base_frame_no = p.base_frame_no := rfl
      omega
    unfold release_frames findOwner
    rw [hsum, if_neg hno]
    rfl
  · unfold frameState at hmark
    unfold releaseIn frameState
    simp only
    have hb : (mark_inaccessible p b n).base_frame_no = p.base_frame_no := rfl
    rw [hb, hu, hbw]
    rw [if_neg (head_test_inaccessible _ (rd_lt _ _) _ hs4 hmark)]
    apply releaseLoop_keeps _ _ _ _ hs4 hs1
    · rw [hu]
      exact first_mask_below _ hs4 hs1
    · exact hmark

/-- Witness for C12 (amended): the fresh self-hosted pool of 16 frames at 512, the range
of 3 frames at 517. -/
theorem mark_then_release_keeps_inaccessible_witness :
    ∃ p, construct (fun _ => 0) 512 16 0 0 = some p ∧
      frameState p (517 - p.base_frame_no) = FREE ∧
      (frameState (mark_inaccessible p 517 3) (517 - p.base_frame_no) = INACCESSIBLE ∧
        release_frames [mark_inaccessible p 517 3] 517 =
          some [releaseIn (mark_inaccessible p 517 3) 517] ∧
        frameState (releaseIn (mark_inaccessible p 517 3) 517) (517 - p.base_frame_no) =
          INACCESSIBLE) :=
  ⟨_, rfl, by decide!,
    mark_then_release_keeps_inaccessible _ 517 3 (by decide!) (by decide!) (by decide!)
      (by decide) (by decide!) (by decide!) (Or.inl (by decide!))⟩

end ContFramePool
